import Mathlib

/-!
Verification of the segmentation-and-aggregation pipeline of the `walking`
repository (`src/rust/src/main.rs`).

Floating-point `f64` values of the source are modelled as exact rationals
(`ℚ`); `u64`/`i64` machine integers are modelled as `ℕ`/`ℤ` with wrap-around
made explicit where a sum could overflow; Rust panics and `unwrap` on `None`
are modelled as `Except String` errors.  `chrono::DateTime<Local>` values are
modelled by their Unix epoch seconds (an `ℤ`), which is the only observable
the pipeline uses of them (`.timestamp()`).
-/

namespace Walking

/-- Primitive field values of the decoded telemetry records
(`fitparser::Value`).  Only the variants the program inspects are modelled,
plus `uint16` as a representative unexpected encoding.  A `timestamp` value
carries epoch milliseconds, from which the source derives both
`timestamp_millis()` and (flooring) `timestamp()` seconds. -/
inductive FitValue where
  | sint32 (v : ℤ)
  | sint8 (v : ℤ)
  | uint8 (v : ℕ)
  | uint16 (v : ℕ)
  | float64 (v : ℚ)
  | timestamp (millis : ℤ)
  | str (s : String)
deriving DecidableEq, Repr

/-- One named and numbered field of a decoded record. -/
structure FitField where
  name : String
  number : ℕ
  value : FitValue
deriving DecidableEq, Repr

/-- The record kind discriminator (`fitparser::profile::MesgNum`): the
program distinguishes `Record`, `Event` and everything else. -/
inductive FitMesgNum where
  | record
  | event
  | other
deriving DecidableEq, Repr

/-- A decoded telemetry record: a kind plus a list of fields. -/
structure FitRecord where
  kind : FitMesgNum
  fields : List FitField
deriving DecidableEq, Repr

/-- First field with the given name:
`record.fields().iter().filter(|df| df.name() == nm).nth(0)`. -/
def firstFieldNamed (r : FitRecord) (nm : String) : Option FitField :=
  r.fields.find? (fun df => df.name == nm)

/-- Value of the first field with the given number:
`record.fields().iter().filter(|f| f.number() == n).map(|f| f.value()).nth(0)`. -/
def firstFieldNumbered (r : FitRecord) (n : ℕ) : Option FitValue :=
  (r.fields.find? (fun f => f.number == n)).map FitField.value

/-- The `Point` struct of the source.  `timestamp` is the epoch-seconds
observable of the stored `DateTime<Local>`. -/
structure Point where
  latitude_deg : ℚ
  longitude_deg : ℚ
  elevation_m : Option ℚ
  unix_timestamp : Option ℚ
  heart_rate_bpm : Option ℕ
  speed_km_per_h : Option ℚ
  cadence_rpm : Option ℕ
  temperature_degc : Option ℤ
  timestamp : Option ℤ
deriving DecidableEq, Repr

/-- The generic pairwise average of the source (`fn avg`): absent/absent
gives absent, a single present value is passed through unchanged, two present
values are combined with `average`; the result is mapped through `jsonify`
(serialization, instantiated with `id` below where the claims concern
values). -/
def avg {T U : Type} (v1 v2 : Option T) (average : T → T → T)
    (jsonify : T → U) : Option U :=
  let a : Option T :=
    match v1, v2 with
    | none, none => none
    | some s1, none => some s1
    | none, some s2 => some s2
    | some s1, some s2 => some (average s1 s2)
  a.map jsonify

/-- `fn f64_avg`: pairwise average of two optional floats via `(a + b)/2.0`. -/
def f64_avg (f1 f2 : Option ℚ) : Option ℚ :=
  avg f1 f2 (fun a b => (a + b) / 2) id

/-- Wrap-around of a `u64` sum (release-mode Rust `+` on `u64`). -/
def u64wrap (x : ℕ) : ℕ := x % 2 ^ 64

/-- Wrap-around of an `i64` sum (release-mode Rust `+` on `i64`),
two's complement. -/
def i64wrap (x : ℤ) : ℤ := (x + 2 ^ 63) % 2 ^ 64 - 2 ^ 63

/-- `fn u64_avg`: pairwise average of two optional `u64` values via the
truncating `(a + b)/2`. -/
def u64_avg (i1 i2 : Option ℕ) : Option ℕ :=
  avg i1 i2 (fun a b => u64wrap (a + b) / 2) id

/-- `fn i64_avg`: pairwise average of two optional `i64` values via the
toward-zero-truncating `(a + b)/2` (Rust integer division truncates toward
zero, which is `Int.div`). -/
def i64_avg (i1 i2 : Option ℤ) : Option ℤ :=
  avg i1 i2 (fun a b => Int.tdiv (i64wrap (a + b)) 2) id

/-- `fn time_avg`: pairwise average of two optional timestamps;
`Local.timestamp((a.timestamp() + b.timestamp()) / 2, 0)` averages the epoch
seconds with truncating `i64` division and reconstructs a local calendar
timestamp, whose epoch-seconds observable is exactly that average. -/
def time_avg (t1 t2 : Option ℤ) : Option ℤ :=
  avg t1 t2 (fun a b => Int.tdiv (i64wrap (a + b)) 2) id

/-- `fn semicircles_to_degrees`: `sc * 180.0 / 2.0_f64.powi(31)`.  For the
`i32` inputs of the program the `f64` computation is exact (the product is
below `2^39` and the divisor is a power of two), so the rational model is
faithful. -/
def semicircles_to_degrees (sc : ℚ) : ℚ :=
  sc * 180 / 2 ^ 31

/-- `fn semicircle_value_to_degrees`: decodes an `SInt32` semicircle field
value; any other encoding panics (`panic!("unexpected value …")`), modelled
as an error. -/
def semicircle_value_to_degrees (sc_val : FitValue) : Except String ℚ :=
  match sc_val with
  | .sint32 sc => Except.ok (semicircles_to_degrees sc)
  | _ => Except.error "unexpected value"

/-- Extraction of the `timestamp` field as a Unix-seconds float:
`ts.timestamp_millis() as f64 / 1000.0`.  A `timestamp` field carrying any
other encoding leaves the value `None`. -/
def extract_unix_timestamp (r : FitRecord) : Option ℚ :=
  match firstFieldNamed r "timestamp" with
  | some tsfield =>
    match tsfield.value with
    | .timestamp ms => some ((ms : ℚ) / 1000)
    | _ => none
  | none => none

/-- Extraction of the `heart_rate` field: a `UInt8` value widened to `u64`;
any other encoding leaves the value `None`. -/
def extract_heart_rate (r : FitRecord) : Option ℕ :=
  match firstFieldNamed r "heart_rate" with
  | some hr_field =>
    match hr_field.value with
    | .uint8 hr => some hr
    | _ => none
  | none => none

/-- Extraction of the `enhanced_altitude` field: a `Float64` value in meters;
any other encoding leaves the value `None`. -/
def extract_altitude (r : FitRecord) : Option ℚ :=
  match firstFieldNamed r "enhanced_altitude" with
  | some alt_field =>
    match alt_field.value with
    | .float64 alt => some alt
    | _ => none
  | none => none

/-- Extraction of the `enhanced_speed` field: a `Float64` value in m/s
converted to km/h via `* 3.6`; any other encoding leaves the value `None`. -/
def extract_speed (r : FitRecord) : Option ℚ :=
  match firstFieldNamed r "enhanced_speed" with
  | some speed_field =>
    match speed_field.value with
    | .float64 speed_mpers => some (speed_mpers * (18 / 5))
    | _ => none
  | none => none

/-- Extraction of the `cadence` field: a `UInt8` value widened to `u64`;
any other encoding leaves the value `None`. -/
def extract_cadence (r : FitRecord) : Option ℕ :=
  match firstFieldNamed r "cadence" with
  | some cadence_field =>
    match cadence_field.value with
    | .uint8 cad => some cad
    | _ => none
  | none => none

/-- Extraction of the `temperature` field: an `SInt8` value widened to `i64`;
any other encoding leaves the value `None`. -/
def extract_temperature (r : FitRecord) : Option ℤ :=
  match firstFieldNamed r "temperature" with
  | some temperature_field =>
    match temperature_field.value with
    | .sint8 temp => some temp
    | _ => none
  | none => none

/-- Extraction of the `timestamp` field as the stored `DateTime<Local>`,
modelled by its flooring epoch-seconds observable (`.timestamp()` =
`millis.fdiv 1000`); any other encoding leaves the value `None`. -/
def extract_time (r : FitRecord) : Option ℤ :=
  match firstFieldNamed r "timestamp" with
  | some time_field =>
    match time_field.value with
    | .timestamp ms => some (Int.fdiv ms 1000)
    | _ => none
  | none => none

/-- The `Point::new(lat_deg, lon_deg, final_altitude, final_timestamp,
final_heart_rate, final_speed_km_per_h, final_cadence, final_temperature,
final_time)` call of the main loop, with the attribute extractions of the
source inlined. -/
def mkPoint (lat_deg lon_deg : ℚ) (r : FitRecord) : Point where
  latitude_deg := lat_deg
  longitude_deg := lon_deg
  elevation_m := extract_altitude r
  unix_timestamp := extract_unix_timestamp r
  heart_rate_bpm := extract_heart_rate r
  speed_km_per_h := extract_speed r
  cadence_rpm := extract_cadence r
  temperature_degc := extract_temperature r
  timestamp := extract_time r

/-- Whether a record is an `Event` record whose field number 0 (event
category) is the string `"timer"` and whose field number 1 (event type) is
the string `"stop_all"` — the timer-stop condition of the main loop. -/
def timerStopTriggered (r : FitRecord) : Bool :=
  r.kind == FitMesgNum.event &&
    (match firstFieldNumbered r 0, firstFieldNumbered r 1 with
     | some (.str ec), some (.str et) => ec == "timer" && et == "stop_all"
     | _, _ => false)

/-- The segmentation state: the closed segments so far (`lines`) and the
open current segment (`line`). -/
abbrev SegState := List (List Point) × List Point

/-- One iteration of the main per-record loop (lines 343–489 of the source,
debug printing omitted): timer-stop events close a non-empty current
segment; non-`Record` records contribute nothing further; a `Record` lacking
`position_lat` or `position_long` closes a non-empty current segment; a
`Record` with both present decodes them (panicking — an error here — on a
non-`SInt32` encoding) and appends the new point to the current segment. -/
def processRecord (st : SegState) (r : FitRecord) : Except String SegState :=
  let lines := st.1
  let line := st.2
  let lines1 := if timerStopTriggered r ∧ line.length > 0 then lines ++ [line] else lines
  let line1 := if timerStopTriggered r then [] else line
  if r.kind ≠ FitMesgNum.record then
    Except.ok (lines1, line1)
  else
    match firstFieldNamed r "position_lat", firstFieldNamed r "position_long" with
    | some lat_semicirc, some lon_semicirc =>
      match semicircle_value_to_degrees lat_semicirc.value,
            semicircle_value_to_degrees lon_semicirc.value with
      | Except.error e, _ => Except.error e
      | Except.ok _, Except.error e => Except.error e
      | Except.ok lat_deg, Except.ok lon_deg =>
        Except.ok (lines1, line1 ++ [mkPoint lat_deg lon_deg r])
    | _, _ =>
      if line1.length > 0 then
        Except.ok (lines1 ++ [line1], [])
      else
        Except.ok (lines1, line1)

/-- Folds the per-record loop body over the record stream from a given
state. -/
def runRecordsFrom (st : SegState) : List FitRecord → Except String SegState
  | [] => Except.ok st
  | r :: rs =>
    match processRecord st r with
    | Except.ok st1 => runRecordsFrom st1 rs
    | Except.error e => Except.error e

/-- The segmentation of a record stream: run the loop from the initial state
(no closed segment, empty current segment) and perform the final flush
(`if line.len() > 0 { lines.push(line); }`). -/
def segmentsOf (records : List FitRecord) : Except String (List (List Point)) :=
  match runRecordsFrom ([], []) records with
  | Except.ok (lines, line) =>
    Except.ok (if line.length > 0 then lines ++ [line] else lines)
  | Except.error e => Except.error e

/-- `fn lines_to_track`: one line geometry per segment, the ordered
`(longitude, latitude)` pairs of its points (properties are empty and
elided). -/
def lines_to_track (lines : List (List Point)) : List (List (ℚ × ℚ)) :=
  lines.map (fun line => line.map (fun p => (p.longitude_deg, p.latitude_deg)))

/-- One edge feature of the points collection: the properties the source
inserts (`running_distance` always; each average only if present) and the
two-point line geometry as `((lon1, lat1), (lon2, lat2))`. -/
structure EdgeFeature where
  running_distance : ℚ
  speed : Option ℚ
  elevation : Option ℚ
  heart_rate : Option ℕ
  cadence : Option ℕ
  temperature : Option ℤ
  timestamp : Option ℤ
  coordinates : (ℚ × ℚ) × (ℚ × ℚ)
deriving DecidableEq, Repr

/-- The index pairs `(line[i], line[i+1])` for `i` in `0..line.len()-1`
traversed by the inner loop of `lines_to_points`. -/
def edgePairs (line : List Point) : List (Point × Point) :=
  line.zip line.tail

/-- The edge feature built for one adjacent pair at a given running
distance. -/
def mkEdge (running_dist_m : ℚ) (point1 point2 : Point) : EdgeFeature where
  running_distance := running_dist_m
  speed := f64_avg point1.speed_km_per_h point2.speed_km_per_h
  elevation := f64_avg point1.elevation_m point2.elevation_m
  heart_rate := u64_avg point1.heart_rate_bpm point2.heart_rate_bpm
  cadence := u64_avg point1.cadence_rpm point2.cadence_rpm
  temperature := i64_avg point1.temperature_degc point2.temperature_degc
  timestamp := time_avg point1.timestamp point2.timestamp
  coordinates := ((point1.longitude_deg, point1.latitude_deg),
                  (point2.longitude_deg, point2.latitude_deg))

/-- The two nested loops of `fn lines_to_points`, with the adjacent pairs of
all segments flattened into one list and `running_dist_m` threaded through
in order.  `dist` abstracts `point_distance` (pure IEEE-754 trigonometry in
the source, outside this rational model). -/
def lines_to_points_aux (dist : Point → Point → ℚ) :
    List (Point × Point) → ℚ → List EdgeFeature
  | [], _ => []
  | (point1, point2) :: rest, running_dist_m =>
    let new_running := running_dist_m + dist point1 point2
    mkEdge new_running point1 point2 :: lines_to_points_aux dist rest new_running

/-- `fn lines_to_points`: the edge-feature collection of a segment list,
with `running_dist_m` starting at `0.0` and never reset between segments. -/
def lines_to_points (dist : Point → Point → ℚ) (lines : List (List Point)) :
    List EdgeFeature :=
  lines_to_points_aux dist (lines.map edgePairs).flatten 0

/-- `fn coord_extrema`: the minimum and maximum of `coord` over all points
of all segments, `None` when no point supplies the coordinate (the source
computes `reduce(f64::min)` and `reduce(f64::max)` over the same
`filter_map`). -/
def coord_extrema (lines : List (List Point)) (coord : Point → Option ℚ) :
    Option (ℚ × ℚ) :=
  match lines.flatten.filterMap coord with
  | [] => none
  | v :: vs => some (vs.foldl min v, vs.foldl max v)

/-- The output document of one processed file (the fields of the
`final_json` object, geometry and properties as modelled above). -/
structure OutputDoc where
  center : ℚ × ℚ
  zoom : ℕ
  track : List (List (ℚ × ℚ))
  points : List EdgeFeature
  elevation_range : ℚ × ℚ
  heart_rate_range : ℚ × ℚ
  speed_range : ℚ × ℚ
  cadence_range : ℚ × ℚ
  temperature_range : ℚ × ℚ

/-- Rust `Option::unwrap`: a panic on `None`, modelled as an error with the
given message. -/
def unwrapE {α : Type} (msg : String) : Option α → Except String α
  | some a => Except.ok a
  | none => Except.error msg

/-- The output document assembled from a segment list and the three
unwrapped extrema, with the four `unwrap_or` fallback ranges of the source:
heart rate `[80, 160]`, speed `[0, 10]`, cadence `[0, 120]`, temperature
`[-10, 45]`. -/
def assembleDoc (dist : Point → Point → ℚ) (lines : List (List Point))
    (latx lonx elex : ℚ × ℚ) : OutputDoc where
  center := ((latx.1 + latx.2) / 2, (lonx.1 + lonx.2) / 2)
  zoom := 12
  track := lines_to_track lines
  points := lines_to_points dist lines
  elevation_range := elex
  heart_rate_range :=
    (coord_extrema lines (fun p => p.heart_rate_bpm.map (fun hr => (hr : ℚ)))).getD (80, 160)
  speed_range := (coord_extrema lines (fun p => p.speed_km_per_h)).getD (0, 10)
  cadence_range :=
    (coord_extrema lines (fun p => p.cadence_rpm.map (fun cad => (cad : ℚ)))).getD (0, 120)
  temperature_range :=
    (coord_extrema lines (fun p => p.temperature_degc.map (fun t => (t : ℚ)))).getD (-10, 45)

/-- The per-file body of `fn main` after the segment list is complete: the
coordinate extrema (latitude and longitude unwrapped first, then
elevation — each a panic when `None`) and the final document. -/
def assembleFile (dist : Point → Point → ℚ) (lines : List (List Point)) :
    Except String OutputDoc := do
  let latx ← unwrapE "latitude extrema: unwrap on None"
    (coord_extrema lines (fun p => some p.latitude_deg))
  let lonx ← unwrapE "longitude extrema: unwrap on None"
    (coord_extrema lines (fun p => some p.longitude_deg))
  let elex ← unwrapE "elevation extrema: unwrap on None"
    (coord_extrema lines (fun p => p.elevation_m))
  Except.ok (assembleDoc dist lines latx lonx elex)

/-- The per-file body of `fn main`: the record loop (segmentation) followed
by document assembly.  `dist` abstracts `point_distance`. -/
def processFile (dist : Point → Point → ℚ) (records : List FitRecord) :
    Except String OutputDoc := do
  let lines ← segmentsOf records
  assembleFile dist lines

/-- Modelled from the spec: the censoring step of the Segmentation Engine
(§4.3) is not present in `src/rust/src/main.rs` (the repository's other,
near-duplicate variant carries it); per the spec, after decoding a position
record with a fix, "If any configured censor polygon contains the point, the
point is silently dropped (the segment is **not** broken …). Otherwise
append the point to the current segment."  `censored` abstracts the
"contained in any configured censor polygon" test; all other transitions are
those of `processRecord`. -/
def processRecordCensored (censored : Point → Bool) (st : SegState)
    (r : FitRecord) : Except String SegState :=
  let lines := st.1
  let line := st.2
  let lines1 := if timerStopTriggered r ∧ line.length > 0 then lines ++ [line] else lines
  let line1 := if timerStopTriggered r then [] else line
  if r.kind ≠ FitMesgNum.record then
    Except.ok (lines1, line1)
  else
    match firstFieldNamed r "position_lat", firstFieldNamed r "position_long" with
    | some lat_semicirc, some lon_semicirc =>
      match semicircle_value_to_degrees lat_semicirc.value,
            semicircle_value_to_degrees lon_semicirc.value with
      | Except.error e, _ => Except.error e
      | Except.ok _, Except.error e => Except.error e
      | Except.ok lat_deg, Except.ok lon_deg =>
        let point := mkPoint lat_deg lon_deg r
        if censored point then
          Except.ok (lines1, line1)
        else
          Except.ok (lines1, line1 ++ [point])
    | _, _ =>
      if line1.length > 0 then
        Except.ok (lines1 ++ [line1], [])
      else
        Except.ok (lines1, line1)

/-- Modelled from the spec: the record loop of the censoring variant, folded
from a given state. -/
def runRecordsCensoredFrom (censored : Point → Bool) (st : SegState) :
    List FitRecord → Except String SegState
  | [] => Except.ok st
  | r :: rs =>
    match processRecordCensored censored st r with
    | Except.ok st1 => runRecordsCensoredFrom censored st1 rs
    | Except.error e => Except.error e

/-- Modelled from the spec: the segmentation of a record stream under
censoring, with the final flush of a non-empty current segment. -/
def segmentsCensored (censored : Point → Bool) (records : List FitRecord) :
    Except String (List (List Point)) :=
  match runRecordsCensoredFrom censored ([], []) records with
  | Except.ok (lines, line) =>
    Except.ok (if line.length > 0 then lines ++ [line] else lines)
  | Except.error e => Except.error e

/-- Whether a record is a position record with a valid fix whose decoded
point is censored: kind `Record`, both coordinate fields present with
`SInt32` values, and the point built from them contained in a censor
region. -/
def contributesCensoredPoint (censored : Point → Bool) (r : FitRecord) : Bool :=
  r.kind == FitMesgNum.record &&
    (match firstFieldNamed r "position_lat", firstFieldNamed r "position_long" with
     | some latf, some lonf =>
       match latf.value, lonf.value with
       | .sint32 la, .sint32 lo =>
         censored (mkPoint (semicircles_to_degrees la) (semicircles_to_degrees lo) r)
       | _, _ => false
     | _, _ => false)

/-- Partial sums of a list starting from `acc`: the value of the
`running_dist_m` accumulator after each edge. -/
def partialSumsFrom (acc : ℚ) : List ℚ → List ℚ
  | [] => []
  | d :: ds => (acc + d) :: partialSumsFrom (acc + d) ds

/-- Partial sums starting from `0.0`, the initial running distance of each
processed file. -/
def partialSums (xs : List ℚ) : List ℚ :=
  partialSumsFrom 0 xs

/-- Whether a record contributes no point: it is not a `Record`, or it lacks
`position_lat` or `position_long` (no position record carries both
coordinates). -/
def contributesNoPoint (r : FitRecord) : Prop :=
  r.kind ≠ FitMesgNum.record ∨
    firstFieldNamed r "position_lat" = none ∨
    firstFieldNamed r "position_long" = none

/-- A concrete position record at semicircle coordinates `(0, 0)` with no
further fields. -/
def recPos0 : FitRecord :=
  ⟨FitMesgNum.record,
   [⟨"position_lat", 0, FitValue.sint32 0⟩,
    ⟨"position_long", 1, FitValue.sint32 0⟩]⟩

/-- The point `recPos0` contributes. -/
def pt0 : Point :=
  mkPoint (semicircles_to_degrees 0) (semicircles_to_degrees 0) recPos0

/-- A concrete timer-stop event record. -/
def recTimerStop : FitRecord :=
  ⟨FitMesgNum.event,
   [⟨"event", 0, FitValue.str "timer"⟩,
    ⟨"event_type", 1, FitValue.str "stop_all"⟩]⟩

/-- A concrete record of a kind other than `Record` and `Event`. -/
def recOther : FitRecord :=
  ⟨FitMesgNum.other, []⟩

/-- A concrete position record whose `heart_rate` field carries a `UInt16`
value instead of the expected `UInt8`. -/
def recHrWrongType : FitRecord :=
  ⟨FitMesgNum.record,
   [⟨"position_lat", 0, FitValue.sint32 0⟩,
    ⟨"position_long", 1, FitValue.sint32 0⟩,
    ⟨"heart_rate", 3, FitValue.uint16 100⟩]⟩

/-- The point `recHrWrongType` contributes. -/
def ptHrWrongType : Point :=
  mkPoint (semicircles_to_degrees 0) (semicircles_to_degrees 0) recHrWrongType

/-- A concrete position record whose `position_lat` field carries a `UInt16`
value instead of the expected `SInt32`. -/
def recLatWrongType : FitRecord :=
  ⟨FitMesgNum.record,
   [⟨"position_lat", 0, FitValue.uint16 7⟩,
    ⟨"position_long", 1, FitValue.sint32 0⟩]⟩

/-- A concrete position record whose `position_long` field carries a
`UInt16` value instead of the expected `SInt32`, with a valid latitude. -/
def recLonWrongType : FitRecord :=
  ⟨FitMesgNum.record,
   [⟨"position_lat", 0, FitValue.sint32 0⟩,
    ⟨"position_long", 1, FitValue.uint16 7⟩]⟩

/-- A concrete record whose six attribute fields all carry unexpected
primitive types. -/
def recAttrsWrongType : FitRecord :=
  ⟨FitMesgNum.record,
   [⟨"heart_rate", 3, FitValue.uint16 100⟩,
    ⟨"enhanced_altitude", 2, FitValue.str "x"⟩,
    ⟨"enhanced_speed", 6, FitValue.uint8 3⟩,
    ⟨"cadence", 4, FitValue.uint16 1⟩,
    ⟨"temperature", 13, FitValue.uint8 2⟩,
    ⟨"timestamp", 253, FitValue.str "t"⟩]⟩

/-- A concrete position record that also carries an elevation observation. -/
def recPosElev : FitRecord :=
  ⟨FitMesgNum.record,
   [⟨"position_lat", 0, FitValue.sint32 0⟩,
    ⟨"position_long", 1, FitValue.sint32 0⟩,
    ⟨"enhanced_altitude", 2, FitValue.float64 5⟩]⟩

/-- The point `recPosElev` contributes. -/
def ptPosElev : Point :=
  mkPoint (semicircles_to_degrees 0) (semicircles_to_degrees 0) recPosElev

/-! ## Theorems -/

/-- C3: for every attribute type and every pair of optional values, the
pairwise average returns `none` for two absent values, returns a single
present value unchanged (not halved), and averages two present values
arithmetically — with truncating integer division for the integer-valued
attributes (`u64_avg`, `i64_avg`) and with timestamps averaged as integer
epoch seconds, the reconstructed local calendar timestamp carrying exactly
that average (`time_avg`).  The overflow side conditions keep the `u64`/`i64`
sums inside their machine range, where they always lie for the program's
`u8`-, `i8`- and epoch-derived values. -/
theorem avg_pairwise_semantics (x y : ℕ) (a b s t : ℤ) (p q : ℚ)
    (hxy : x + y < 2 ^ 64)
    (hab1 : -2 ^ 63 ≤ a + b) (hab2 : a + b < 2 ^ 63)
    (hst1 : -2 ^ 63 ≤ s + t) (hst2 : s + t < 2 ^ 63) :
    u64_avg (some x) (some y) = some ((x + y) / 2) ∧
    i64_avg (some a) (some b) = some (Int.tdiv (a + b) 2) ∧
    time_avg (some s) (some t) = some (Int.tdiv (s + t) 2) ∧
    f64_avg (some p) (some q) = some ((p + q) / 2) ∧
    u64_avg (some x) none = some x ∧ u64_avg none (some y) = some y ∧
    u64_avg none none = none ∧
    i64_avg (some a) none = some a ∧ i64_avg none (some b) = some b ∧
    i64_avg none none = none ∧
    f64_avg (some p) none = some p ∧ f64_avg none (some q) = some q ∧
    f64_avg none none = none ∧
    time_avg (some s) none = some s ∧ time_avg none (some t) = some t ∧
    time_avg none none = none := by
  have hu : u64wrap (x + y) = x + y := Nat.mod_eq_of_lt hxy
  have hiab : i64wrap (a + b) = a + b := by
    unfold i64wrap
    rw [Int.emod_eq_of_lt (by linarith) (by linarith)]
    ring
  have hist : i64wrap (s + t) = s + t := by
    unfold i64wrap
    rw [Int.emod_eq_of_lt (by linarith) (by linarith)]
    ring
  refine ⟨?_, ?_, ?_, rfl, rfl, rfl, rfl, rfl, rfl, rfl, rfl, rfl, rfl,
    rfl, rfl, rfl⟩
  · simp [u64_avg, avg, hu]
  · simp [i64_avg, avg, hiab]
  · simp [time_avg, avg, hist]

/-- Witness for C3 at concrete inputs. -/
theorem avg_pairwise_semantics_witness :
    ((3 : ℕ) + 8 < 2 ^ 64) ∧
    u64_avg (some 3) (some 8) = some 5 ∧
    i64_avg (some (-3)) (some 0) = some (-1) ∧
    time_avg (some 11) (some 14) = some 12 ∧
    f64_avg (some (1 / 2)) none = some (1 / 2) := by
  have h := avg_pairwise_semantics 3 8 (-3) 0 11 14 (1 / 2) (3 / 2)
    (by norm_num) (by norm_num) (by norm_num) (by norm_num) (by norm_num)
  refine ⟨by norm_num, h.1.trans (by norm_num), h.2.1.trans (by decide),
    h.2.2.1.trans (by decide), h.2.2.2.2.2.2.2.2.2.2.1⟩

/-- C7: every signed 32-bit semicircle value `v` decodes to
`v * 180 / 2^31` degrees; `0` decodes to `0.0°` and `2^31 - 1` decodes to
just under `180.0°` (strictly less). -/
theorem semicircle_decoding (v : ℤ) :
    semicircles_to_degrees (v : ℚ) = (v : ℚ) * 180 / 2 ^ 31 ∧
    semicircle_value_to_degrees (FitValue.sint32 v) =
      Except.ok ((v : ℚ) * 180 / 2 ^ 31) ∧
    semicircles_to_degrees ((0 : ℤ) : ℚ) = 0 ∧
    semicircles_to_degrees ((2 ^ 31 - 1 : ℤ) : ℚ) < 180 ∧
    179 < semicircles_to_degrees ((2 ^ 31 - 1 : ℤ) : ℚ) := by
  refine ⟨rfl, rfl, ?_, ?_, ?_⟩
  · norm_num [semicircles_to_degrees]
  · norm_num [semicircles_to_degrees]
  · norm_num [semicircles_to_degrees]

lemma kind_of_timerStop {r : FitRecord} (h : timerStopTriggered r = true) :
    r.kind = FitMesgNum.event := by
  unfold timerStopTriggered at h
  rw [Bool.and_eq_true] at h
  exact beq_iff_eq.mp h.1

lemma timerStop_of_record {r : FitRecord} (h : r.kind = FitMesgNum.record) :
    timerStopTriggered r = false := by
  unfold timerStopTriggered
  simp [h]

/-- C1: a timer-stop event record, and a position record lacking one or both
coordinate fields, drive the same transition: the current segment is
appended to the output track exactly when it is non-empty, the new current
segment is empty, and no point is contributed by the triggering record. -/
theorem stop_or_fixloss_transition (r : FitRecord) (lines : List (List Point))
    (line : List Point)
    (h : timerStopTriggered r = true ∨
      (r.kind = FitMesgNum.record ∧
        (firstFieldNamed r "position_lat" = none ∨
         firstFieldNamed r "position_long" = none))) :
    processRecord (lines, line) r =
      Except.ok ((if line = [] then lines else lines ++ [line]),
        ([] : List Point)) := by
  rcases h with hts | ⟨hk, hmiss⟩
  · have hk := kind_of_timerStop hts
    unfold processRecord
    simp only [hts, hk]
    by_cases hl : line = []
    · subst hl; simp
    · have hlen : line.length > 0 := List.length_pos.mpr hl
      simp [hl, hlen]
  · have hts : timerStopTriggered r = false := timerStop_of_record hk
    unfold processRecord
    simp only [hts, hk]
    by_cases hl : line = []
    · subst hl
      rcases hmiss with hm | hm <;> simp [hm]
    · have hlen : line.length > 0 := List.length_pos.mpr hl
      rcases hmiss with hm | hm
      · simp [hm, hl, hlen]
      · rcases hlat : firstFieldNamed r "position_lat" with _ | latf <;>
          simp [hlat, hm, hl, hlen]

/-- Witness for C1: a timer-stop event closing a one-point segment, and a
coordinate-less position record closing a one-point segment. -/
theorem stop_or_fixloss_transition_witness :
    timerStopTriggered recTimerStop = true ∧
    processRecord ([], [pt0]) recTimerStop = Except.ok ([[pt0]], []) ∧
    processRecord ([], [pt0]) ⟨FitMesgNum.record, []⟩ =
      Except.ok ([[pt0]], []) := by
  have h1 := stop_or_fixloss_transition recTimerStop [] [pt0] (Or.inl rfl)
  have h2 := stop_or_fixloss_transition ⟨FitMesgNum.record, []⟩ [] [pt0]
    (Or.inr ⟨rfl, Or.inl rfl⟩)
  refine ⟨rfl, ?_, ?_⟩
  · simpa using h1
  · simpa using h2

lemma processRecord_preserves_nonempty {st st1 : SegState} {r : FitRecord}
    (hinv : ∀ l ∈ st.1, l ≠ [])
    (h : processRecord st r = Except.ok st1) :
    ∀ l ∈ st1.1, l ≠ [] := by
  have hl1 : ∀ l ∈ (if timerStopTriggered r ∧ st.2.length > 0
      then st.1 ++ [st.2] else st.1), l ≠ [] := by
    split
    · next hcond =>
      intro l hl
      rcases List.mem_append.mp hl with hmem | hmem
      · exact hinv l hmem
      · rw [List.mem_singleton.mp hmem]
        exact List.length_pos.mp hcond.2
    · exact hinv
  unfold processRecord at h
  dsimp only at h
  split at h
  · rw [Except.ok.injEq] at h
    rw [← h]
    exact hl1
  · split at h
    · split at h
      · exact absurd h (by simp)
      · exact absurd h (by simp)
      · rw [Except.ok.injEq] at h
        rw [← h]
        exact hl1
    · split at h
      · rw [if_neg (by simp), Except.ok.injEq] at h
        rw [← h]
        exact hl1
      · split at h
        · next hlen =>
          rw [Except.ok.injEq] at h
          rw [← h]
          intro l hl
          rcases List.mem_append.mp hl with hmem | hmem
          · exact hl1 l hmem
          · rw [List.mem_singleton.mp hmem]
            exact List.length_pos.mp hlen
        · rw [Except.ok.injEq] at h
          rw [← h]
          exact hl1

lemma runRecordsFrom_preserves_nonempty :
    ∀ (records : List FitRecord) (st st1 : SegState),
      (∀ l ∈ st.1, l ≠ []) →
      runRecordsFrom st records = Except.ok st1 →
      ∀ l ∈ st1.1, l ≠ []
  | [], st, st1, hinv, h => by
    rw [runRecordsFrom, Except.ok.injEq] at h
    rw [← h]
    exact hinv
  | r :: rs, st, st1, hinv, h => by
    rw [runRecordsFrom] at h
    split at h
    · next st2 hstep =>
      exact runRecordsFrom_preserves_nonempty rs st2 st1
        (processRecord_preserves_nonempty hinv hstep) h
    · exact absurd h (by simp)

/-- C9: every segment appearing in the output track of a successful
segmentation is non-empty — whether closed by a timer-stop event, a lost
fix, or the end-of-stream flush, segments of length zero are never
emitted. -/
theorem segments_never_empty (records : List FitRecord)
    (lines : List (List Point)) (h : segmentsOf records = Except.ok lines) :
    ∀ l ∈ lines, l ≠ [] := by
  unfold segmentsOf at h
  split at h
  · next ls cur hrun =>
    have hinv := runRecordsFrom_preserves_nonempty records ([], []) (ls, cur)
      (by simp) hrun
    rw [Except.ok.injEq] at h
    rw [← h]
    split
    · next hlen =>
      intro l hl
      rcases List.mem_append.mp hl with hmem | hmem
      · exact hinv l hmem
      · rw [List.mem_singleton.mp hmem]
        exact List.length_pos.mp hlen
    · exact hinv
  · exact absurd h (by simp)

/-- Witness for C9: a concrete stream whose two closures (one by a
timer-stop event, one by the final flush) both emit non-empty segments. -/
theorem segments_never_empty_witness :
    segmentsOf [recPos0, recTimerStop, recPos0] = Except.ok [[pt0], [pt0]] ∧
    [pt0] ≠ ([] : List Point) := by
  have hseg : segmentsOf [recPos0, recTimerStop, recPos0] =
      Except.ok [[pt0], [pt0]] := rfl
  exact ⟨hseg, segments_never_empty [recPos0, recTimerStop, recPos0]
    [[pt0], [pt0]] hseg [pt0] (by simp)⟩

lemma processRecord_noContrib {r : FitRecord} (h : contributesNoPoint r) :
    processRecord ([], []) r = Except.ok ([], []) := by
  unfold processRecord
  dsimp only
  rcases h with hk | hm | hm
  · rw [if_pos hk]
    simp
  · by_cases hk : r.kind ≠ FitMesgNum.record
    · rw [if_pos hk]; simp
    · rw [if_neg hk, hm]
      simp
  · by_cases hk : r.kind ≠ FitMesgNum.record
    · rw [if_pos hk]; simp
    · rw [if_neg hk, hm]
      rcases hlat : firstFieldNamed r "position_lat" with _ | f <;> simp [hlat]

lemma runRecordsFrom_noContrib :
    ∀ records : List FitRecord, (∀ r ∈ records, contributesNoPoint r) →
      runRecordsFrom ([], []) records = Except.ok ([], [])
  | [], _ => rfl
  | r :: rs, h => by
    have hp := processRecord_noContrib (h r (List.mem_cons_self r rs))
    rw [runRecordsFrom, hp]
    exact runRecordsFrom_noContrib rs (fun r2 hr2 => h r2 (List.mem_cons_of_mem r hr2))

lemma segmentsOf_noContrib {records : List FitRecord}
    (h : ∀ r ∈ records, contributesNoPoint r) :
    segmentsOf records = Except.ok [] := by
  rw [segmentsOf, runRecordsFrom_noContrib records h]
  rfl

/-- C10: a record stream in which no position record carries both
coordinates yields zero points; processing then fails at the unconditional
unwrap of the latitude extrema (the extrema of an empty point collection are
`None`), and no output document is produced. -/
theorem zero_points_latitude_unwrap_panics (dist : Point → Point → ℚ)
    (records : List FitRecord)
    (h : ∀ r ∈ records, contributesNoPoint r) :
    processFile dist records = Except.error "latitude extrema: unwrap on None" := by
  have hseg := segmentsOf_noContrib h
  unfold processFile
  rw [hseg]
  rfl

/-- Witness for C10: a one-record stream with no position records fails at
the latitude extrema. -/
theorem zero_points_latitude_unwrap_panics_witness :
    contributesNoPoint recOther ∧
    processFile (fun _ _ => 1) [recOther] =
      Except.error "latitude extrema: unwrap on None" := by
  have hnc : contributesNoPoint recOther := Or.inl (by decide)
  refine ⟨hnc, zero_points_latitude_unwrap_panics (fun _ _ => 1) [recOther] ?_⟩
  intro r hr
  rw [List.mem_singleton] at hr
  rw [hr]
  exact hnc

lemma coord_extrema_eq_none {lines : List (List Point)}
    {coord : Point → Option ℚ} (h : ∀ p ∈ lines.flatten, coord p = none) :
    coord_extrema lines coord = none := by
  unfold coord_extrema
  rw [List.filterMap_eq_nil_iff.mpr h]

lemma coord_extrema_isSome {lines : List (List Point)}
    {coord : Point → Option ℚ} (h : lines.flatten.filterMap coord ≠ []) :
    ∃ x, coord_extrema lines coord = some x := by
  unfold coord_extrema
  rcases hv : lines.flatten.filterMap coord with _ | ⟨v, vs⟩
  · exact absurd hv h
  · exact ⟨_, rfl⟩

lemma coord_extrema_total {lines : List (List Point)} (f : Point → ℚ)
    (h : lines.flatten ≠ []) :
    ∃ x, coord_extrema lines (fun p => some (f p)) = some x := by
  apply coord_extrema_isSome
  intro hnil
  rcases List.exists_mem_of_ne_nil _ h with ⟨p, hp⟩
  have := List.filterMap_eq_nil_iff.mp hnil p hp
  simp at this

lemma coord_extrema_of_observation {lines : List (List Point)}
    (coord : Point → Option ℚ) {p : Point} (hp : p ∈ lines.flatten)
    (h : (coord p).isSome) :
    ∃ x, coord_extrema lines coord = some x := by
  apply coord_extrema_isSome
  intro hnil
  rw [List.filterMap_eq_nil_iff.mp hnil p hp] at h
  simp at h

lemma processFile_eq_assembleFile {dist : Point → Point → ℚ}
    {records : List FitRecord} {lines : List (List Point)}
    (h : segmentsOf records = Except.ok lines) :
    processFile dist records = assembleFile dist lines := by
  unfold processFile
  rw [h]
  rfl

lemma assembleFile_eq_ok {dist : Point → Point → ℚ}
    {lines : List (List Point)} {latx lonx elex : ℚ × ℚ}
    (hlat : coord_extrema lines (fun p => some p.latitude_deg) = some latx)
    (hlon : coord_extrema lines (fun p => some p.longitude_deg) = some lonx)
    (hele : coord_extrema lines (fun p => p.elevation_m) = some elex) :
    assembleFile dist lines = Except.ok (assembleDoc dist lines latx lonx elex) := by
  unfold assembleFile
  rw [hlat, hlon, hele]
  rfl

lemma assembleFile_no_elevation {dist : Point → Point → ℚ}
    {lines : List (List Point)} {latx lonx : ℚ × ℚ}
    (hlat : coord_extrema lines (fun p => some p.latitude_deg) = some latx)
    (hlon : coord_extrema lines (fun p => some p.longitude_deg) = some lonx)
    (hele : coord_extrema lines (fun p => p.elevation_m) = none) :
    assembleFile dist lines = Except.error "elevation extrema: unwrap on None" := by
  unfold assembleFile
  rw [hlat, hlon, hele]
  rfl

/-- C6: for every processed file, each optional attribute with no
observations in any point gets its fixed fallback range in the output —
heart rate `[80, 160]`, speed `[0, 10]`, cadence `[0, 120]`, temperature
`[-10, 45]` — while the absence of elevation anywhere in the track is fatal:
processing aborts with an error instead of substituting a range. -/
theorem missing_attribute_fallbacks_and_fatal_elevation :
    (∀ (dist : Point → Point → ℚ) (records : List FitRecord)
       (lines : List (List Point)),
      segmentsOf records = Except.ok lines →
      lines.flatten ≠ [] →
      (∃ p ∈ lines.flatten, p.elevation_m.isSome) →
      ∃ out, processFile dist records = Except.ok out ∧
        ((∀ p ∈ lines.flatten, p.heart_rate_bpm = none) →
          out.heart_rate_range = (80, 160)) ∧
        ((∀ p ∈ lines.flatten, p.speed_km_per_h = none) →
          out.speed_range = (0, 10)) ∧
        ((∀ p ∈ lines.flatten, p.cadence_rpm = none) →
          out.cadence_range = (0, 120)) ∧
        ((∀ p ∈ lines.flatten, p.temperature_degc = none) →
          out.temperature_range = (-10, 45))) ∧
    (∀ (dist : Point → Point → ℚ) (records : List FitRecord)
       (lines : List (List Point)),
      segmentsOf records = Except.ok lines →
      lines.flatten ≠ [] →
      (∀ p ∈ lines.flatten, p.elevation_m = none) →
      processFile dist records =
        Except.error "elevation extrema: unwrap on None") := by
  constructor
  · intro dist records lines hseg hne hobs
    rcases coord_extrema_total (fun p => p.latitude_deg) hne with ⟨latx, hlat⟩
    rcases coord_extrema_total (fun p => p.longitude_deg) hne with ⟨lonx, hlon⟩
    rcases hobs with ⟨p, hp, hps⟩
    rcases coord_extrema_of_observation (fun p => p.elevation_m) hp hps
      with ⟨elex, hele⟩
    refine ⟨assembleDoc dist lines latx lonx elex,
      (processFile_eq_assembleFile hseg).trans (assembleFile_eq_ok hlat hlon hele),
      ?_, ?_, ?_, ?_⟩
    · intro hnone
      have hx : coord_extrema lines (fun p => p.heart_rate_bpm.map (fun hr => (hr : ℚ))) = none :=
        coord_extrema_eq_none (fun p hp => by rw [hnone p hp]; rfl)
      show (coord_extrema lines (fun p => p.heart_rate_bpm.map (fun hr => (hr : ℚ)))).getD (80, 160) = (80, 160)
      rw [hx]
      rfl
    · intro hnone
      have hx : coord_extrema lines (fun p => p.speed_km_per_h) = none :=
        coord_extrema_eq_none (fun p hp => hnone p hp)
      show (coord_extrema lines (fun p => p.speed_km_per_h)).getD (0, 10) = (0, 10)
      rw [hx]
      rfl
    · intro hnone
      have hx : coord_extrema lines (fun p => p.cadence_rpm.map (fun cad => (cad : ℚ))) = none :=
        coord_extrema_eq_none (fun p hp => by rw [hnone p hp]; rfl)
      show (coord_extrema lines (fun p => p.cadence_rpm.map (fun cad => (cad : ℚ)))).getD (0, 120) = (0, 120)
      rw [hx]
      rfl
    · intro hnone
      have hx : coord_extrema lines (fun p => p.temperature_degc.map (fun t => (t : ℚ))) = none :=
        coord_extrema_eq_none (fun p hp => by rw [hnone p hp]; rfl)
      show (coord_extrema lines (fun p => p.temperature_degc.map (fun t => (t : ℚ)))).getD (-10, 45) = (-10, 45)
      rw [hx]
      rfl
  · intro dist records lines hseg hne hnone
    rcases coord_extrema_total (fun p => p.latitude_deg) hne with ⟨latx, hlat⟩
    rcases coord_extrema_total (fun p => p.longitude_deg) hne with ⟨lonx, hlon⟩
    exact (processFile_eq_assembleFile hseg).trans
      (assembleFile_no_elevation hlat hlon (coord_extrema_eq_none hnone))

/-- Witness for C6: a file whose only point has an elevation but no heart
rate, speed, cadence or temperature gets all four fallback ranges; a file
whose only point lacks elevation aborts. -/
theorem missing_attribute_fallbacks_and_fatal_elevation_witness :
    (segmentsOf [recPosElev] = Except.ok [[ptPosElev]] ∧
      ∃ out, processFile (fun _ _ => 1) [recPosElev] = Except.ok out ∧
        out.heart_rate_range = (80, 160) ∧ out.speed_range = (0, 10) ∧
        out.cadence_range = (0, 120) ∧ out.temperature_range = (-10, 45)) ∧
    (segmentsOf [recPos0] = Except.ok [[pt0]] ∧
      processFile (fun _ _ => 1) [recPos0] =
        Except.error "elevation extrema: unwrap on None") := by
  have h := missing_attribute_fallbacks_and_fatal_elevation
  have hseg1 : segmentsOf [recPosElev] = Except.ok [[ptPosElev]] := rfl
  have hseg2 : segmentsOf [recPos0] = Except.ok [[pt0]] := rfl
  constructor
  · refine ⟨hseg1, ?_⟩
    rcases h.1 (fun _ _ => 1) [recPosElev] [[ptPosElev]] hseg1 (by simp)
      ⟨ptPosElev, by simp, rfl⟩ with ⟨out, hout, h1, h2, h3, h4⟩
    exact ⟨out, hout, h1 (by intro p hp; simp at hp; rw [hp]; rfl),
      h2 (by intro p hp; simp at hp; rw [hp]; rfl),
      h3 (by intro p hp; simp at hp; rw [hp]; rfl),
      h4 (by intro p hp; simp at hp; rw [hp]; rfl)⟩
  · exact ⟨hseg2, h.2 (fun _ _ => 1) [recPos0] [[pt0]] hseg2 (by simp)
      (by intro p hp; simp at hp; rw [hp]; rfl)⟩

lemma lines_to_points_aux_map_running (dist : Point → Point → ℚ) :
    ∀ (pairs : List (Point × Point)) (acc : ℚ),
      (lines_to_points_aux dist pairs acc).map EdgeFeature.running_distance =
        partialSumsFrom acc (pairs.map fun pq => dist pq.1 pq.2)
  | [], _ => rfl
  | (p1, p2) :: rest, acc => by
    show (mkEdge (acc + dist p1 p2) p1 p2).running_distance ::
        (lines_to_points_aux dist rest (acc + dist p1 p2)).map EdgeFeature.running_distance =
      (acc + dist p1 p2) ::
        partialSumsFrom (acc + dist p1 p2) (rest.map fun pq => dist pq.1 pq.2)
    rw [lines_to_points_aux_map_running dist rest (acc + dist p1 p2)]
    rfl

lemma partialSumsFrom_get :
    ∀ (xs : List ℚ) (acc : ℚ) (i : ℕ) (hi : i < (partialSumsFrom acc xs).length),
      (partialSumsFrom acc xs).get ⟨i, hi⟩ = acc + (xs.take (i + 1)).sum
  | [], acc, i, hi => by simp [partialSumsFrom] at hi
  | d :: ds, acc, 0, hi => by simp [partialSumsFrom]
  | d :: ds, acc, i + 1, hi => by
    have hi2 : i < (partialSumsFrom (acc + d) ds).length := by
      simpa [partialSumsFrom] using hi
    show (partialSumsFrom (acc + d) ds).get ⟨i, hi2⟩ =
      acc + ((d :: ds).take (i + 2)).sum
    rw [partialSumsFrom_get ds (acc + d) i hi2, List.take_succ_cons,
      List.sum_cons]
    ring

lemma partialSumsFrom_chain :
    ∀ (xs : List ℚ), (∀ d ∈ xs, 0 ≤ d) → ∀ acc : ℚ,
      List.Chain' (· ≤ ·) (partialSumsFrom acc xs)
  | [], _, acc => by simp [partialSumsFrom]
  | d :: ds, h, acc => by
    rw [partialSumsFrom]
    apply List.chain'_cons'.mpr
    constructor
    · intro y hy
      cases ds with
      | nil => simp [partialSumsFrom] at hy
      | cons e es =>
        rw [show (partialSumsFrom (acc + d) (e :: es)).head? =
          some (acc + d + e) from rfl] at hy
        have hy2 : acc + d + e = y := by simpa [Option.mem_def] using hy
        have he : (0 : ℚ) ≤ e := h e (by simp)
        linarith
    · exact partialSumsFrom_chain ds
        (fun e he => h e (List.mem_cons_of_mem d he)) (acc + d)

/-- C2: the `running_distance` properties of the emitted edge features are
the partial sums, starting from zero, of the edge distances of the whole
file taken in emission order across all segments — never reset within the
file — and (for a nonnegative distance function, which geodesic distances
are) they are monotonically non-decreasing in emission order. -/
theorem running_distance_partial_sums (dist : Point → Point → ℚ)
    (lines : List (List Point)) (hd : ∀ p q : Point, 0 ≤ dist p q) :
    (lines_to_points dist lines).map EdgeFeature.running_distance =
      partialSums ((lines.map edgePairs).flatten.map (fun pq => dist pq.1 pq.2)) ∧
    (∀ (i : ℕ)
      (hi : i < ((lines_to_points dist lines).map EdgeFeature.running_distance).length),
      ((lines_to_points dist lines).map EdgeFeature.running_distance).get ⟨i, hi⟩ =
        (((lines.map edgePairs).flatten.map (fun pq => dist pq.1 pq.2)).take (i + 1)).sum) ∧
    List.Chain' (· ≤ ·)
      ((lines_to_points dist lines).map EdgeFeature.running_distance) := by
  have heq : (lines_to_points dist lines).map EdgeFeature.running_distance =
      partialSums ((lines.map edgePairs).flatten.map (fun pq => dist pq.1 pq.2)) :=
    lines_to_points_aux_map_running dist (lines.map edgePairs).flatten 0
  refine ⟨heq, ?_, ?_⟩
  · intro i hi
    have hget := List.get_of_eq heq ⟨i, hi⟩
    rw [hget]
    exact (partialSumsFrom_get _ 0 i _).trans (zero_add _)
  · rw [heq, partialSums]
    apply partialSumsFrom_chain
    intro d hdm
    rcases List.mem_map.mp hdm with ⟨pq, _, hpq⟩
    rw [← hpq]
    exact hd pq.1 pq.2

/-- Witness for C2: two one-edge segments with unit distances give running
distances `[1, 2]` accumulated across the segment boundary. -/
theorem running_distance_partial_sums_witness :
    (∀ p q : Point, (0 : ℚ) ≤ (fun _ _ => (1 : ℚ)) p q) ∧
    List.Chain' (· ≤ ·)
      ((lines_to_points (fun _ _ => (1 : ℚ)) [[pt0, pt0], [pt0, pt0]]).map
        EdgeFeature.running_distance) ∧
    (lines_to_points (fun _ _ => (1 : ℚ)) [[pt0, pt0], [pt0, pt0]]).map
        EdgeFeature.running_distance = [0 + 1, 0 + 1 + 1] := by
  have h := running_distance_partial_sums (fun _ _ => 1) [[pt0, pt0], [pt0, pt0]]
    (fun p q => by norm_num)
  exact ⟨fun p q => by norm_num, h.2.2, rfl⟩

/-- C8 counterexample: a position record whose `heart_rate` field carries a
`UInt16` value instead of the expected `UInt8` is processed without any
fatal error — the heart rate is silently treated as absent, contradicting
the claim that every unexpected field encoding is fatal. -/
theorem attribute_type_mismatch_not_fatal_cex :
    processRecord ([], []) recHrWrongType = Except.ok ([], [ptHrWrongType]) ∧
    ptHrWrongType.heart_rate_bpm = none :=
  ⟨rfl, rfl⟩

lemma semicircle_value_to_degrees_error {v : FitValue}
    (h : ∀ sc : ℤ, v ≠ FitValue.sint32 sc) :
    semicircle_value_to_degrees v = Except.error "unexpected value" := by
  cases v with
  | sint32 sc => exact absurd rfl (h sc)
  | sint8 _ => rfl
  | uint8 _ => rfl
  | uint16 _ => rfl
  | float64 _ => rfl
  | timestamp _ => rfl
  | str _ => rfl

lemma extract_heart_rate_mismatch {r : FitRecord} {f : FitField}
    (h1 : firstFieldNamed r "heart_rate" = some f)
    (h2 : ∀ v : ℕ, f.value ≠ FitValue.uint8 v) :
    extract_heart_rate r = none := by
  unfold extract_heart_rate
  rw [h1]
  dsimp only
  cases hv : f.value with
  | uint8 v => exact absurd hv (h2 v)
  | sint32 _ => rfl
  | sint8 _ => rfl
  | uint16 _ => rfl
  | float64 _ => rfl
  | timestamp _ => rfl
  | str _ => rfl

lemma extract_altitude_mismatch {r : FitRecord} {f : FitField}
    (h1 : firstFieldNamed r "enhanced_altitude" = some f)
    (h2 : ∀ v : ℚ, f.value ≠ FitValue.float64 v) :
    extract_altitude r = none := by
  unfold extract_altitude
  rw [h1]
  dsimp only
  cases hv : f.value with
  | float64 v => exact absurd hv (h2 v)
  | sint32 _ => rfl
  | sint8 _ => rfl
  | uint8 _ => rfl
  | uint16 _ => rfl
  | timestamp _ => rfl
  | str _ => rfl

lemma extract_speed_mismatch {r : FitRecord} {f : FitField}
    (h1 : firstFieldNamed r "enhanced_speed" = some f)
    (h2 : ∀ v : ℚ, f.value ≠ FitValue.float64 v) :
    extract_speed r = none := by
  unfold extract_speed
  rw [h1]
  dsimp only
  cases hv : f.value with
  | float64 v => exact absurd hv (h2 v)
  | sint32 _ => rfl
  | sint8 _ => rfl
  | uint8 _ => rfl
  | uint16 _ => rfl
  | timestamp _ => rfl
  | str _ => rfl

lemma extract_cadence_mismatch {r : FitRecord} {f : FitField}
    (h1 : firstFieldNamed r "cadence" = some f)
    (h2 : ∀ v : ℕ, f.value ≠ FitValue.uint8 v) :
    extract_cadence r = none := by
  unfold extract_cadence
  rw [h1]
  dsimp only
  cases hv : f.value with
  | uint8 v => exact absurd hv (h2 v)
  | sint32 _ => rfl
  | sint8 _ => rfl
  | uint16 _ => rfl
  | float64 _ => rfl
  | timestamp _ => rfl
  | str _ => rfl

lemma extract_temperature_mismatch {r : FitRecord} {f : FitField}
    (h1 : firstFieldNamed r "temperature" = some f)
    (h2 : ∀ v : ℤ, f.value ≠ FitValue.sint8 v) :
    extract_temperature r = none := by
  unfold extract_temperature
  rw [h1]
  dsimp only
  cases hv : f.value with
  | sint8 v => exact absurd hv (h2 v)
  | sint32 _ => rfl
  | uint8 _ => rfl
  | uint16 _ => rfl
  | float64 _ => rfl
  | timestamp _ => rfl
  | str _ => rfl

lemma extract_unix_timestamp_mismatch {r : FitRecord} {f : FitField}
    (h1 : firstFieldNamed r "timestamp" = some f)
    (h2 : ∀ ms : ℤ, f.value ≠ FitValue.timestamp ms) :
    extract_unix_timestamp r = none := by
  unfold extract_unix_timestamp
  rw [h1]
  dsimp only
  cases hv : f.value with
  | timestamp ms => exact absurd hv (h2 ms)
  | sint32 _ => rfl
  | sint8 _ => rfl
  | uint8 _ => rfl
  | uint16 _ => rfl
  | float64 _ => rfl
  | str _ => rfl

lemma extract_time_mismatch {r : FitRecord} {f : FitField}
    (h1 : firstFieldNamed r "timestamp" = some f)
    (h2 : ∀ ms : ℤ, f.value ≠ FitValue.timestamp ms) :
    extract_time r = none := by
  unfold extract_time
  rw [h1]
  dsimp only
  cases hv : f.value with
  | timestamp ms => exact absurd hv (h2 ms)
  | sint32 _ => rfl
  | sint8 _ => rfl
  | uint8 _ => rfl
  | uint16 _ => rfl
  | float64 _ => rfl
  | str _ => rfl

/-- C8 amended: only the position coordinate fields are protected by a
fatal type check — a `position_lat` or a `position_long` field carrying any
non-`SInt32` primitive type makes processing fail fatally — while each of
the six attribute fields (heart rate, elevation, speed, cadence,
temperature, timestamp) carrying an unexpected primitive type is silently
treated as absent for that record: never coerced, but never fatal
either. -/
theorem position_type_mismatch_fatal (st : SegState) :
    (∀ (r : FitRecord) (latf : FitField),
      r.kind = FitMesgNum.record →
      firstFieldNamed r "position_lat" = some latf →
      (firstFieldNamed r "position_long").isSome →
      (∀ sc : ℤ, latf.value ≠ FitValue.sint32 sc) →
      processRecord st r = Except.error "unexpected value") ∧
    (∀ (r : FitRecord) (latf lonf : FitField) (la : ℤ),
      r.kind = FitMesgNum.record →
      firstFieldNamed r "position_lat" = some latf →
      firstFieldNamed r "position_long" = some lonf →
      latf.value = FitValue.sint32 la →
      (∀ sc : ℤ, lonf.value ≠ FitValue.sint32 sc) →
      processRecord st r = Except.error "unexpected value") ∧
    (∀ (r : FitRecord) (f : FitField),
      firstFieldNamed r "heart_rate" = some f →
      (∀ v : ℕ, f.value ≠ FitValue.uint8 v) →
      extract_heart_rate r = none) ∧
    (∀ (r : FitRecord) (f : FitField),
      firstFieldNamed r "enhanced_altitude" = some f →
      (∀ v : ℚ, f.value ≠ FitValue.float64 v) →
      extract_altitude r = none) ∧
    (∀ (r : FitRecord) (f : FitField),
      firstFieldNamed r "enhanced_speed" = some f →
      (∀ v : ℚ, f.value ≠ FitValue.float64 v) →
      extract_speed r = none) ∧
    (∀ (r : FitRecord) (f : FitField),
      firstFieldNamed r "cadence" = some f →
      (∀ v : ℕ, f.value ≠ FitValue.uint8 v) →
      extract_cadence r = none) ∧
    (∀ (r : FitRecord) (f : FitField),
      firstFieldNamed r "temperature" = some f →
      (∀ v : ℤ, f.value ≠ FitValue.sint8 v) →
      extract_temperature r = none) ∧
    (∀ (r : FitRecord) (f : FitField),
      firstFieldNamed r "timestamp" = some f →
      (∀ ms : ℤ, f.value ≠ FitValue.timestamp ms) →
      extract_unix_timestamp r = none ∧ extract_time r = none) := by
  refine ⟨?_, ?_,
    fun r f h1 h2 => extract_heart_rate_mismatch h1 h2,
    fun r f h1 h2 => extract_altitude_mismatch h1 h2,
    fun r f h1 h2 => extract_speed_mismatch h1 h2,
    fun r f h1 h2 => extract_cadence_mismatch h1 h2,
    fun r f h1 h2 => extract_temperature_mismatch h1 h2,
    fun r f h1 h2 =>
      ⟨extract_unix_timestamp_mismatch h1 h2, extract_time_mismatch h1 h2⟩⟩
  · intro r latf hk hlat hlon hbad
    rcases Option.isSome_iff_exists.mp hlon with ⟨lonf, hlonf⟩
    have hdec := semicircle_value_to_degrees_error hbad
    unfold processRecord
    dsimp only
    rw [if_neg (by rw [hk]; simp), hlat, hlonf]
    dsimp only
    rw [hdec]
  · intro r latf lonf la hk hlat hlonf hlatv hbad
    have hdec := semicircle_value_to_degrees_error hbad
    unfold processRecord
    dsimp only
    rw [if_neg (by rw [hk]; simp), hlat, hlonf]
    dsimp only
    rw [hdec, hlatv]
    dsimp only [semicircle_value_to_degrees]

/-- Witness for the amended C8: concrete records with a `UInt16`
`position_lat` (respectively `position_long`) fail fatally, while a record
whose six attribute fields all carry wrong primitive types yields every
attribute absent. -/
theorem position_type_mismatch_fatal_witness :
    recLatWrongType.kind = FitMesgNum.record ∧
    recLonWrongType.kind = FitMesgNum.record ∧
    processRecord ([], []) recLatWrongType = Except.error "unexpected value" ∧
    processRecord ([], []) recLonWrongType = Except.error "unexpected value" ∧
    extract_heart_rate recAttrsWrongType = none ∧
    extract_altitude recAttrsWrongType = none ∧
    extract_speed recAttrsWrongType = none ∧
    extract_cadence recAttrsWrongType = none ∧
    extract_temperature recAttrsWrongType = none ∧
    extract_unix_timestamp recAttrsWrongType = none ∧
    extract_time recAttrsWrongType = none := by
  have h := position_type_mismatch_fatal ([], [])
  have hts := h.2.2.2.2.2.2.2 recAttrsWrongType
    ⟨"timestamp", 253, FitValue.str "t"⟩ rfl
    (fun ms hms => FitValue.noConfusion hms)
  exact ⟨rfl, rfl,
    h.1 recLatWrongType ⟨"position_lat", 0, FitValue.uint16 7⟩ rfl rfl rfl
      (fun sc hsc => FitValue.noConfusion hsc),
    h.2.1 recLonWrongType ⟨"position_lat", 0, FitValue.sint32 0⟩
      ⟨"position_long", 1, FitValue.uint16 7⟩ 0 rfl rfl rfl rfl
      (fun sc hsc => FitValue.noConfusion hsc),
    h.2.2.1 recAttrsWrongType ⟨"heart_rate", 3, FitValue.uint16 100⟩ rfl
      (fun v hv => FitValue.noConfusion hv),
    h.2.2.2.1 recAttrsWrongType ⟨"enhanced_altitude", 2, FitValue.str "x"⟩ rfl
      (fun v hv => FitValue.noConfusion hv),
    h.2.2.2.2.1 recAttrsWrongType ⟨"enhanced_speed", 6, FitValue.uint8 3⟩ rfl
      (fun v hv => FitValue.noConfusion hv),
    h.2.2.2.2.2.1 recAttrsWrongType ⟨"cadence", 4, FitValue.uint16 1⟩ rfl
      (fun v hv => FitValue.noConfusion hv),
    h.2.2.2.2.2.2.1 recAttrsWrongType ⟨"temperature", 13, FitValue.uint8 2⟩ rfl
      (fun v hv => FitValue.noConfusion hv),
    hts.1, hts.2⟩

lemma processRecordCensored_preserves {censored : Point → Bool}
    {st st1 : SegState} {r : FitRecord}
    (h1 : ∀ l ∈ st.1, ∀ p ∈ l, censored p = false)
    (h2 : ∀ p ∈ st.2, censored p = false)
    (h : processRecordCensored censored st r = Except.ok st1) :
    (∀ l ∈ st1.1, ∀ p ∈ l, censored p = false) ∧
    (∀ p ∈ st1.2, censored p = false) := by
  have hl1 : ∀ l ∈ (if timerStopTriggered r ∧ st.2.length > 0
      then st.1 ++ [st.2] else st.1), ∀ p ∈ l, censored p = false := by
    split
    · intro l hl
      rcases List.mem_append.mp hl with hm | hm
      · exact h1 l hm
      · rw [List.mem_singleton.mp hm]
        exact h2
    · exact h1
  have hl2 : ∀ p ∈ (if timerStopTriggered r then ([] : List Point) else st.2),
      censored p = false := by
    split
    · intro p hp
      simp at hp
    · exact h2
  unfold processRecordCensored at h
  dsimp only at h
  split at h
  · rw [Except.ok.injEq] at h
    rw [← h]
    exact ⟨hl1, hl2⟩
  · split at h
    · split at h
      · exact absurd h (by simp)
      · exact absurd h (by simp)
      · split at h
        · rw [Except.ok.injEq] at h
          rw [← h]
          exact ⟨hl1, hl2⟩
        · next hcens =>
          rw [Except.ok.injEq] at h
          rw [← h]
          refine ⟨hl1, ?_⟩
          intro p hp
          rcases List.mem_append.mp hp with hm | hm
          · exact hl2 p hm
          · rw [List.mem_singleton.mp hm]
            simpa using hcens
    · split at h
      · rw [if_neg (by simp), Except.ok.injEq] at h
        rw [← h]
        exact ⟨hl1, fun p hp => by simp at hp⟩
      · split at h
        · rw [Except.ok.injEq] at h
          rw [← h]
          refine ⟨?_, fun p hp => by simp at hp⟩
          intro l hl
          rcases List.mem_append.mp hl with hm | hm
          · exact hl1 l hm
          · rw [List.mem_singleton.mp hm]
            exact h2
        · rw [Except.ok.injEq] at h
          rw [← h]
          exact ⟨hl1, h2⟩

lemma runRecordsCensoredFrom_preserves {censored : Point → Bool} :
    ∀ (records : List FitRecord) (st st1 : SegState),
      (∀ l ∈ st.1, ∀ p ∈ l, censored p = false) →
      (∀ p ∈ st.2, censored p = false) →
      runRecordsCensoredFrom censored st records = Except.ok st1 →
      (∀ l ∈ st1.1, ∀ p ∈ l, censored p = false) ∧
      (∀ p ∈ st1.2, censored p = false)
  | [], st, st1, h1, h2, h => by
    rw [runRecordsCensoredFrom, Except.ok.injEq] at h
    rw [← h]
    exact ⟨h1, h2⟩
  | r :: rs, st, st1, h1, h2, h => by
    rw [runRecordsCensoredFrom] at h
    split at h
    · next st2 hstep =>
      have hinv := processRecordCensored_preserves h1 h2 hstep
      exact runRecordsCensoredFrom_preserves rs st2 st1 hinv.1 hinv.2 h
    · exact absurd h (by simp)

lemma segmentsCensored_not_censored {censored : Point → Bool}
    {records : List FitRecord} {lines : List (List Point)}
    (h : segmentsCensored censored records = Except.ok lines) :
    ∀ l ∈ lines, ∀ p ∈ l, censored p = false := by
  unfold segmentsCensored at h
  split at h
  · next ls cur hrun =>
    have hinv := runRecordsCensoredFrom_preserves records ([], []) (ls, cur)
      (by simp) (by simp) hrun
    rw [Except.ok.injEq] at h
    rw [← h]
    split
    · intro l hl
      rcases List.mem_append.mp hl with hm | hm
      · exact hinv.1 l hm
      · rw [List.mem_singleton.mp hm]
        exact hinv.2
    · exact hinv.1
  · exact absurd h (by simp)

lemma lines_to_points_aux_coords (dist : Point → Point → ℚ) :
    ∀ (pairs : List (Point × Point)) (acc : ℚ) (e : EdgeFeature),
      e ∈ lines_to_points_aux dist pairs acc →
      ∃ pq ∈ pairs, e.coordinates =
        ((pq.1.longitude_deg, pq.1.latitude_deg),
         (pq.2.longitude_deg, pq.2.latitude_deg))
  | [], _, e, he => by simp [lines_to_points_aux] at he
  | (p1, p2) :: rest, acc, e, he => by
    simp only [lines_to_points_aux] at he
    rcases List.mem_cons.mp he with he1 | he1
    · exact ⟨(p1, p2), List.mem_cons_self _ _, by rw [he1]; rfl⟩
    · rcases lines_to_points_aux_coords dist rest (acc + dist p1 p2) e he1
        with ⟨pq, hpq, hc⟩
      exact ⟨pq, List.mem_cons_of_mem _ hpq, hc⟩

lemma edgePairs_mem {l : List Point} {pq : Point × Point}
    (h : pq ∈ edgePairs l) : pq.1 ∈ l ∧ pq.2 ∈ l := by
  obtain ⟨a, b⟩ := pq
  have hz := List.of_mem_zip h
  exact ⟨hz.1, List.mem_of_mem_tail hz.2⟩

/-- C5: under the spec-modelled censoring variant of the segmentation
engine, for every position record whose decoded point is censored: (1) the
record leaves the segmentation state completely unchanged — the segment is
not closed, points before and after it remain in the same segment, and no
point is contributed; (2) every point of every emitted segment (hence every
coordinate pair of the track geometry) is uncensored; (3) every edge
feature of the points collection connects two uncensored points of the
emitted segments, so a censored point appears in neither collection. -/
theorem censored_point_excluded (censored : Point → Bool) :
    (∀ (st : SegState) (r : FitRecord) (latf lonf : FitField) (la lo : ℤ),
      r.kind = FitMesgNum.record →
      firstFieldNamed r "position_lat" = some latf →
      firstFieldNamed r "position_long" = some lonf →
      latf.value = FitValue.sint32 la →
      lonf.value = FitValue.sint32 lo →
      censored (mkPoint (semicircles_to_degrees (la : ℚ))
        (semicircles_to_degrees (lo : ℚ)) r) = true →
      processRecordCensored censored st r = Except.ok st) ∧
    (∀ (records : List FitRecord) (lines : List (List Point)),
      segmentsCensored censored records = Except.ok lines →
      ∀ l ∈ lines, ∀ p ∈ l, censored p = false) ∧
    (∀ (records : List FitRecord) (lines : List (List Point))
       (dist : Point → Point → ℚ) (e : EdgeFeature),
      segmentsCensored censored records = Except.ok lines →
      e ∈ lines_to_points dist lines →
      ∃ p1 p2 : Point, p1 ∈ lines.flatten ∧ p2 ∈ lines.flatten ∧
        censored p1 = false ∧ censored p2 = false ∧
        e.coordinates = ((p1.longitude_deg, p1.latitude_deg),
          (p2.longitude_deg, p2.latitude_deg))) := by
  refine ⟨?_, fun records lines h => segmentsCensored_not_censored h, ?_⟩
  · intro st r latf lonf la lo hk hlat hlon hlatv hlonv hcens
    have hts := timerStop_of_record hk
    unfold processRecordCensored
    dsimp only
    rw [if_neg (by rw [hk]; simp), hlat, hlon]
    dsimp only
    rw [hlatv, hlonv]
    dsimp only [semicircle_value_to_degrees]
    rw [if_pos hcens]
    simp [hts]
  · intro records lines dist e hseg he
    have hnc := segmentsCensored_not_censored hseg
    rcases lines_to_points_aux_coords dist (lines.map edgePairs).flatten 0 e he
      with ⟨pq, hpq, hc⟩
    rcases List.mem_flatten.mp hpq with ⟨lp, hlp, hpq2⟩
    rcases List.mem_map.mp hlp with ⟨l, hl, hlp2⟩
    rw [← hlp2] at hpq2
    have hm := edgePairs_mem hpq2
    refine ⟨pq.1, pq.2, List.mem_flatten.mpr ⟨l, hl, hm.1⟩,
      List.mem_flatten.mpr ⟨l, hl, hm.2⟩, hnc l hl pq.1 hm.1,
      hnc l hl pq.2 hm.2, hc⟩

/-- Witness for C5: with every point censored, a valid position record
leaves the state untouched and the stream produces no segments. -/
theorem censored_point_excluded_witness :
    processRecordCensored (fun _ => true) ([], []) recPos0 =
      Except.ok ([], []) ∧
    segmentsCensored (fun _ => true) [recPos0] = Except.ok [] := by
  refine ⟨(censored_point_excluded (fun _ => true)).1 ([], []) recPos0
    ⟨"position_lat", 0, FitValue.sint32 0⟩
    ⟨"position_long", 1, FitValue.sint32 0⟩ 0 0 rfl rfl rfl rfl rfl rfl, rfl⟩

end Walking
